import Mathlib

/-!
Verification development for the Academic-Nexus educational-resource portal.

The JavaScript source is shallowly embedded: JS strings become `String`
(operated on at the `List Char` level, since the relevant host functions —
`toLowerCase`, `split`, `trim`, substring search, decimal rendering — are
modelled by executable char-list functions), JS numbers in the size
calculations become exact rationals `ℚ`, JS arrays become `List`, and the
stable ES2019 `Array.prototype.sort` becomes `List.mergeSort` (stable merge
sort) with the comparator `cmp` translated to the boolean relation
`le a b ↔ cmp a b ≤ 0`.  Browser storage is modelled as the explicit state
that each class keeps in it (queues, history lists, favorites), and
`localStorage` writes as fields of that state.
-/

/-! ### Character-list helpers modelling JS host string functions -/

/-- Model of `String.prototype.includes` / substring containment: does
`needle` occur contiguously inside `hay`? -/
def listStartsWith : List Char → List Char → Bool
  | _, [] => true
  | [], _ :: _ => false
  | a :: as, b :: bs => a == b && listStartsWith as bs

/-- Substring search used to model `includes` and regex-free matching. -/
def containsSub : List Char → List Char → Bool
  | [], needle => needle.isEmpty
  | c :: rest, needle => listStartsWith (c :: rest) needle || containsSub rest needle

/-- Model of `String.prototype.split` with a one-character separator
(JS `"".split(sep)` is `[""]`, and separators at the ends produce empty
fields, which this reproduces). -/
def splitOnChar (sep : Char) : List Char → List (List Char)
  | [] => [[]]
  | c :: rest =>
    let r := splitOnChar sep rest
    if c == sep then [] :: r
    else
      match r with
      | [] => [[c]]
      | h :: t => (c :: h) :: t

/-- Model of `String.prototype.toLowerCase` at the char-list level. -/
def lowerChars (s : String) : List Char := s.data.map Char.toLower

/-- Model of `String.prototype.trim`. -/
def trimChars (cs : List Char) : List Char :=
  ((cs.dropWhile Char.isWhitespace).reverse.dropWhile Char.isWhitespace).reverse

/-- Decimal digit character for a value `0 ≤ n ≤ 9`. -/
def digitChar (n : Nat) : Char := Char.ofNat (48 + n)

/-- Fuel-driven decimal rendering of a natural number (the fuel is only a
structural-recursion device; `natToDecimalChars` always supplies enough). -/
def natDigitsAux : Nat → Nat → List Char
  | 0, _ => []
  | fuel + 1, n => if n < 10 then [digitChar n] else natDigitsAux fuel (n / 10) ++ [digitChar (n % 10)]

/-- Model of JS integer-valued `Number` → `String` conversion. -/
def natToDecimalChars (n : Nat) : List Char := natDigitsAux (n + 1) n

/-- Numeric value of a list of decimal digit characters. -/
def digitsToNat (cs : List Char) : Nat := cs.foldl (fun acc c => 10 * acc + (c.toNat - 48)) 0

/-! ### Data model: a resource record (src/data/resources.js shape).

`uploaded` is the numeric timestamp that `new Date(item.uploaded || 0)`
yields (absent field ↦ `none`, read back as 0); `downloads` is the counter
read as `item.downloads || 0`; `fileSize` is the formatted label, absent
when the field is missing; `tags` is `none` when the record has no `tags`
field (JS `item.tags && ...` treats that as falsy). -/

structure Resource where
  id : String
  title : String
  description : String
  category : String
  subject : String
  grade : String
  year : String
  fileSize : Option String
  uploaded : Option Nat
  downloads : Option Nat
  tags : Option (List String)
deriving DecidableEq

namespace FilterManager

/-- The `activeFilters` object of `FilterManager` (src/utils/analytics.js,
constructor). -/
structure Filters where
  category : String
  grade : String
  year : String
  subject : String
  sortBy : String
  tags : List String
deriving DecidableEq

/-- Default filter selection set up by the constructor and `resetFilters`. -/
def defaultFilters : Filters :=
  { category := "all", grade := "all", year := "all", subject := "all"
    sortBy := "popular", tags := [] }

/-- Successful match data of the regex `^(\d+(?:\.\d+)?)\s*(B|KB|MB|GB)$/i`:
the integer digits, the fractional digits (empty when the optional group did
not participate), and the upper-cased unit. -/
structure SizeMatch where
  intPart : List Char
  fracPart : List Char
  unit : List Char
deriving DecidableEq

/-- The four units accepted by the size regex, upper-cased. -/
def sizeUnits : List (List Char) := [['B'], ['K', 'B'], ['M', 'B'], ['G', 'B']]

/-- After the numeric part, the regex allows `\s*` and then one of the units
must make up the entire remainder of the string (the match is anchored). -/
def unitCheck (intPart fracPart rest : List Char) : Option SizeMatch :=
  let unitChars := (rest.dropWhile Char.isWhitespace).map Char.toUpper
  if unitChars ∈ sizeUnits then some ⟨intPart, fracPart, unitChars⟩ else none

/-- Executable model of matching `^(\d+(?:\.\d+)?)\s*(B|KB|MB|GB)$` with the
case-insensitive flag against a string: greedy digits, an optional fraction
that requires at least one digit, optional whitespace, then a unit that must
consume the rest.  (The units contain no digits, dots or whitespace, so the
greedy deterministic scan agrees with the backtracking regex.) -/
def parseSizeChars (cs : List Char) : Option SizeMatch :=
  let intPart := cs.takeWhile Char.isDigit
  if intPart = [] then none
  else
    match cs.dropWhile Char.isDigit with
    | '.' :: afterDot =>
      let fracPart := afterDot.takeWhile Char.isDigit
      if fracPart = [] then none
      else unitCheck intPart fracPart (afterDot.dropWhile Char.isDigit)
    | other => unitCheck intPart [] other

/-- Value of `parseFloat` on the matched number, as an exact rational. -/
def numberValue (m : SizeMatch) : ℚ :=
  (digitsToNat m.intPart : ℚ) +
    (if m.fracPart = [] then 0 else (digitsToNat m.fracPart : ℚ) / 10 ^ m.fracPart.length)

/-- The `switch (unit.toUpperCase())` multiplier of `parseFileSize`. -/
def unitMultiplier (unit : List Char) : ℚ :=
  if unit = ['G', 'B'] then 1024 * 1024 * 1024
  else if unit = ['M', 'B'] then 1024 * 1024
  else if unit = ['K', 'B'] then 1024
  else 1

/-- `FilterManager.parseFileSize` (src/utils/analytics.js): a falsy input
(missing field or empty string) and any string the regex rejects map to 0;
a match maps to number × unit multiplier.  JS numbers are modelled as exact
rationals. -/
def parseFileSize (sizeString : Option String) : ℚ :=
  match sizeString with
  | none => 0
  | some s =>
    if s = "" then 0
    else
      match parseSizeChars s.data with
      | none => 0
      | some m => numberValue m * unitMultiplier m.unit

/-- `item.uploaded || 0` fed to `new Date(...)`, as a numeric sort key. -/
def dateVal (r : Resource) : Nat := r.uploaded.getD 0

/-- `item.downloads || 0`. -/
def downloadsVal (r : Resource) : Nat := r.downloads.getD 0

/-- Comparators of `applySorting`'s `switch` (src/utils/analytics.js):
`le a b` holds exactly when the JS comparator returns `≤ 0` on `(a, b)`;
an unrecognized sort key has no `case`, so no comparator. -/
def sortComparator (sortBy : String) : Option (Resource → Resource → Bool) :=
  match sortBy with
  | "newest" => some fun a b => decide (dateVal b ≤ dateVal a)
  | "oldest" => some fun a b => decide (dateVal a ≤ dateVal b)
  | "popular" => some fun a b => decide (downloadsVal b ≤ downloadsVal a)
  | "name-asc" => some fun a b => decide (a.title.data ≤ b.title.data)
  | "name-desc" => some fun a b => decide (b.title.data ≤ a.title.data)
  | "size-asc" => some fun a b => decide (parseFileSize a.fileSize ≤ parseFileSize b.fileSize)
  | "size-desc" => some fun a b => decide (parseFileSize b.fileSize ≤ parseFileSize a.fileSize)
  | _ => none

/-- `FilterManager.applySorting`: a stable sort by the selected comparator,
or the list unchanged when the sort key is not recognized. -/
def applySorting (resources : List Resource) (sortBy : String) : List Resource :=
  match sortComparator sortBy with
  | some le => resources.mergeSort le
  | none => resources

/-- `activeFilters.tags.every((tag) => item.tags && item.tags.includes(tag))`,
one tag at a time. -/
def tagIncludes (item : Resource) (tag : String) : Bool :=
  match item.tags with
  | some ts => ts.contains tag
  | none => false

/-- Category step of `applyFilters`. -/
def categoryStep (f : Filters) (l : List Resource) : List Resource :=
  if f.category ≠ "all" then l.filter fun item => item.category == f.category else l

/-- Grade step of `applyFilters`. -/
def gradeStep (f : Filters) (l : List Resource) : List Resource :=
  if f.grade ≠ "all" then l.filter fun item => item.grade == f.grade else l

/-- Year step of `applyFilters`. -/
def yearStep (f : Filters) (l : List Resource) : List Resource :=
  if f.year ≠ "all" then l.filter fun item => item.year == f.year else l

/-- Subject step of `applyFilters`. -/
def subjectStep (f : Filters) (l : List Resource) : List Resource :=
  if f.subject ≠ "all" then l.filter fun item => item.subject == f.subject else l

/-- Tags step of `applyFilters`. -/
def tagsStep (f : Filters) (l : List Resource) : List Resource :=
  if f.tags.length > 0 then l.filter (fun item => f.tags.all fun tag => tagIncludes item tag) else l

/-- The five successive filters of `FilterManager.applyFilters`, before the
final sorting. -/
def filterOnly (resources : List Resource) (f : Filters) : List Resource :=
  tagsStep f (subjectStep f (yearStep f (gradeStep f (categoryStep f resources))))

/-- `FilterManager.applyFilters(resources, filters)`. -/
def applyFilters (resources : List Resource) (f : Filters) : List Resource :=
  applySorting (filterOnly resources f) f.sortBy

/-- A record matches every non-"all" axis of the selection: equality on
category / grade / year / subject and containment of every required tag. -/
def matchesSelection (f : Filters) (item : Resource) : Bool :=
  (decide (f.category = "all") || item.category == f.category) &&
  ((decide (f.grade = "all") || item.grade == f.grade) &&
  ((decide (f.year = "all") || item.year == f.year) &&
  ((decide (f.subject = "all") || item.subject == f.subject) &&
  (f.tags.all fun tag => tagIncludes item tag))))

/-- `FilterManager.setFilter(key, value)` restricted to the axis keys the
page uses (`this.activeFilters[key] = value`). -/
def setFilter (f : Filters) (key value : String) : Filters :=
  match key with
  | "category" => { f with category := value }
  | "grade" => { f with grade := value }
  | "year" => { f with year := value }
  | "subject" => { f with subject := value }
  | "sortBy" => { f with sortBy := value }
  | _ => f

/-- The value test of `updateURL`:
`value !== "all" && value !== "popular" && value !== ""`. -/
def keepParam (v : String) : Bool := v != "all" && v != "popular" && v != ""

/-- `FilterManager.updateURL`: the query parameters produced from the active
filters, in `Object.entries` insertion order.  Note the keys are the literal
field names of `activeFilters`, so the sort axis is emitted under `sortBy`.
Tags pass the string tests vacuously (an array never equals a string) and are
included, comma-joined, exactly when non-empty. -/
def updateURLParams (f : Filters) : List (String × String) :=
  (if keepParam f.category then [("category", f.category)] else []) ++
  (if keepParam f.grade then [("grade", f.grade)] else []) ++
  (if keepParam f.year then [("year", f.year)] else []) ++
  (if keepParam f.subject then [("subject", f.subject)] else []) ++
  (if keepParam f.sortBy then [("sortBy", f.sortBy)] else []) ++
  (if f.tags.length > 0 then [("tags", ⟨List.intercalate [','] (f.tags.map String.data)⟩)] else [])

/-- `URLSearchParams.get`: first value stored under the key, if any. -/
def paramGet (params : List (String × String)) (key : String) : Option String :=
  (params.find? fun kv => kv.1 == key).map fun kv => kv.2

/-- `params.get(k) || dflt`: JS `||` takes the default for a missing
parameter and for the empty string (both falsy). -/
def orDefault (o : Option String) (dflt : String) : String :=
  match o with
  | some s => if s = "" then dflt else s
  | none => dflt

/-- `FilterManager.initFromURL`: rebuild the selection from the query
string.  The sort axis is read from the parameter named `sort`; a falsy
`tags` parameter gives no tags, otherwise the value is split on commas. -/
def initFromURL (params : List (String × String)) : Filters :=
  { category := orDefault (paramGet params "category") "all"
    grade := orDefault (paramGet params "grade") "all"
    year := orDefault (paramGet params "year") "all"
    subject := orDefault (paramGet params "subject") "all"
    sortBy := orDefault (paramGet params "sort") "popular"
    tags :=
      match paramGet params "tags" with
      | some s => if s = "" then [] else (splitOnChar ',' s.data).map fun cs => (⟨cs⟩ : String)
      | none => [] }

end FilterManager

namespace DownloadManager

/-- `this.maxRetries = 3` from the `DownloadManager` constructor
(src/utils/download.js). -/
def maxRetries : Nat := 3

/-- `DownloadManager.downloadPDF` (src/utils/download.js), abstracted over
the attempt outcomes: `attemptOk i` tells whether the browser-download
attempt made with `retryCount = i` succeeds (the `try` body) or throws.
The returned triple is (total attempts made, `success` field of the resolved
result, whether the `onError` callback was invoked).  The function never
throws: every failure path resolves with `success := false`. -/
def downloadPDF (attemptOk : Nat → Bool) (maxRetries retryCount : Nat) : Nat × Bool × Bool :=
  if attemptOk retryCount then (1, true, false)
  else if retryCount < maxRetries then
    let r := downloadPDF attemptOk maxRetries (retryCount + 1)
    (r.1 + 1, r.2.1, r.2.2)
  else (1, false, true)
termination_by maxRetries - retryCount
decreasing_by omega

/-- `DownloadManager.trackDownload`'s mutation of the persisted
`downloadHistory` list: `unshift` then truncate to 1000 entries. -/
def trackDownload {α : Type} (d : α) (downloads : List α) : List α :=
  let h := d :: downloads
  if h.length > 1000 then h.take 1000 else h

/-- JS `toFixed(2)` on a non-negative number, re-read by `parseFloat`:
rounding half-up to two decimals, as an exact rational. -/
def toFixed2 (q : ℚ) : ℚ := (⌊q * 100 + 1 / 2⌋ : ℚ) / 100

/-- JS rendering of a non-negative `Number` whose value has at most two
decimals: integer part, then a fractional part with trailing zeros dropped. -/
def ratTo2decChars (q : ℚ) : List Char :=
  let m := (⌊q * 100⌋).toNat
  let ip := m / 100
  let fp := m % 100
  if fp = 0 then natToDecimalChars ip
  else if fp % 10 = 0 then natToDecimalChars ip ++ '.' :: natToDecimalChars (fp / 10)
  else natToDecimalChars ip ++ '.' ::
    (if fp < 10 then '0' :: natToDecimalChars fp else natToDecimalChars fp)

/-- The `sizes` array of `formatFileSize`. -/
def sizesList : List String := ["Bytes", "KB", "MB", "GB"]

/-- `DownloadManager.formatFileSize(bytes)` (src/utils/download.js):
`i = Math.floor(Math.log(bytes) / Math.log(1024))` is modelled by the exact
`Nat.log 1024`, and the binary-unit value is rendered with two-decimal
precision.  Zero bytes short-circuits to `"0 Bytes"`. -/
def formatFileSize (bytes : Nat) : String :=
  if bytes = 0 then "0 Bytes"
  else
    let i := Nat.log 1024 bytes
    let v := toFixed2 ((bytes : ℚ) / 1024 ^ i)
    ⟨ratTo2decChars v ++ ' ' :: (sizesList.getD i "undefined").data⟩

end DownloadManager

namespace StorageManager

/-- `StorageManager.addToDownloadHistory` (src/utils/storage.js): `unshift`
the new entry onto the stored `download_history` list, then truncate to 100
entries (`history.length = 100`). -/
def addToDownloadHistory {α : Type} (item : α) (history : List α) : List α :=
  let h := item :: history
  if h.length > 100 then h.take 100 else h

/-- `StorageManager.addFavorite(itemId)` (src/utils/storage.js) acting on
the stored `favorites` list.  Result: (new stored list, whether a storage
write happened, the returned boolean).  The storage write itself is modelled
as succeeding. -/
def addFavorite (favorites : List String) (itemId : String) : List String × Bool × Bool :=
  if favorites.contains itemId = false then (favorites ++ [itemId], true, true)
  else (favorites, false, true)

/-- `StorageManager.removeFavorite(itemId)`: splice out the first occurrence
when `indexOf` finds one, otherwise return `true` without writing. -/
def removeFavorite (favorites : List String) (itemId : String) : List String × Bool × Bool :=
  if favorites.contains itemId then (favorites.erase itemId, true, true)
  else (favorites, false, true)

/-- A sequence of favorite operations applied to a stored list:
`(true, id)` is `addFavorite id`, `(false, id)` is `removeFavorite id`. -/
def applyFavoriteOps (favorites : List String) (ops : List (Bool × String)) : List String :=
  ops.foldl (fun favs op => if op.1 then (addFavorite favs op.2).1 else (removeFavorite favs op.2).1)
    favorites

end StorageManager

namespace ExamPortal

/-- `ExamPortal.trackDownload`'s mutation of the controller's in-memory
`downloadHistory` (src/unnamed/part_001): `unshift` then `slice(0, 100)`
when the list exceeds 100 entries. -/
def trackDownload {α : Type} (record : α) (history : List α) : List α :=
  let h := record :: history
  if h.length > 100 then h.take 100 else h

end ExamPortal

namespace AnalyticsTracker

/-- State of the `AnalyticsTracker` (src/utils/analytics.js) relevant to the
queue: the in-memory `this.queue`, the `analytics_queue` copy persisted by
`saveQueue`, and the `enabled` flag.  Event payloads are abstract (`α`);
the session/user-id stamping does not affect queue order or length. -/
structure Tracker (α : Type) where
  queue : List α
  persisted : List α
  enabled : Bool
deriving DecidableEq

/-- Fresh tracker: empty in-memory and persisted queues, analytics on. -/
def init {α : Type} : Tracker α := ⟨[], [], true⟩

/-- `AnalyticsTracker.queueEvent`: push the event, persist the queue, and
report whether the auto-flush condition `this.queue.length >= 20` fired
(when it does, `queueEvent` immediately invokes `flushQueue`). -/
def queueEvent {α : Type} (t : Tracker α) (e : α) : Tracker α × Bool :=
  if t.enabled = false then (t, false)
  else
    let q := t.queue ++ [e]
    ({ queue := q, persisted := q, enabled := t.enabled }, decide (q.length ≥ 20))

/-- The synchronous head of `flushQueue`: unless the queue is empty or
analytics is disabled, swap the queue out for an empty one and hand the
batch to the network send. -/
def flushBegin {α : Type} (t : Tracker α) : Tracker α × List α :=
  if t.queue.length = 0 ∨ t.enabled = false then (t, [])
  else ({ t with queue := [] }, t.queue)

/-- The failure branch of `sendEvents` (the asynchronous send): re-queue the
failed batch ahead of whatever was enqueued during the attempt
(`this.queue = [...events, ...this.queue]`) and persist (`saveQueue`). -/
def sendEventsFail {α : Type} (t : Tracker α) (events : List α) : Tracker α :=
  { t with queue := events ++ t.queue, persisted := events ++ t.queue }

/-- A sequence of `queueEvent` calls (states only). -/
def enqueueAll {α : Type} (t : Tracker α) (es : List α) : Tracker α :=
  es.foldl (fun t e => (queueEvent t e).1) t

end AnalyticsTracker

namespace SearchEngine

/-- One entry of `this.searchIndex` built by `indexResources`
(src/unnamed/part_002); `searchText` is the precomputed lower-case
concatenation. -/
structure IndexEntry where
  id : String
  title : String
  description : String
  subject : String
  tags : List String
  grade : String
  year : String
  category : String
  searchText : List Char

/-- `SearchEngine.createSearchText`: the truthy parts (title, description,
subject, grade, year, then any tags), lower-cased and space-joined. -/
def createSearchText (r : Resource) : List Char :=
  let parts := [r.title, r.description, r.subject, r.grade, r.year] ++ r.tags.getD []
  List.intercalate [' '] ((parts.filter fun s => s ≠ "").map lowerChars)

/-- The state of the search engine: retained full resources, the index, and
the `isIndexed` flag. -/
structure Engine where
  fullResources : List Resource
  searchIndex : List IndexEntry
  isIndexed : Bool

/-- `SearchEngine.indexResources`: retain the full records and rebuild the
index wholesale. -/
def indexResources (resources : List Resource) : Engine :=
  { fullResources := resources
    searchIndex := resources.map fun r =>
      { id := r.id, title := r.title, description := r.description, subject := r.subject
        tags := r.tags.getD [], grade := r.grade, year := r.year, category := r.category
        searchText := createSearchText r }
    isIndexed := true }

/-- The match predicate of `search`: substring match on title / description
/ subject, or on some tag, or some whitespace-split query word occurring in
the precomputed search text. -/
def matchesQuery (item : IndexEntry) (searchTerm : List Char) : Bool :=
  containsSub (lowerChars item.title) searchTerm ||
  containsSub (lowerChars item.description) searchTerm ||
  containsSub (lowerChars item.subject) searchTerm ||
  item.tags.any (fun tag => containsSub (lowerChars tag) searchTerm) ||
  (splitOnChar ' ' searchTerm).any fun word => containsSub item.searchText word

/-- `SearchEngine.calculateRelevance`: the weighted score. -/
def calculateRelevance (item : IndexEntry) (searchTerm : List Char) : Nat :=
  (if containsSub (lowerChars item.title) searchTerm then 100 else 0) +
  (if containsSub (lowerChars item.subject) searchTerm then 50 else 0) +
  (if containsSub (lowerChars item.description) searchTerm then 30 else 0) +
  (if item.tags.any (fun tag => containsSub (lowerChars tag) searchTerm) then 20 else 0) +
  10 * ((splitOnChar ' ' searchTerm).countP fun word => containsSub item.searchText word)

/-- The equality filters accepted by the search path (`options.filters`);
a `none` field is a falsy/absent filter. -/
structure SearchFilters where
  category : Option String := none
  grade : Option String := none
  year : Option String := none
  subject : Option String := none

/-- `SearchEngine.applyFilters` on search results. -/
def applySearchFilters (results : List IndexEntry) (filters : Option SearchFilters) :
    List IndexEntry :=
  match filters with
  | none => results
  | some f =>
    results.filter fun item =>
      (match f.category with | some c => item.category == c | none => true) &&
      (match f.grade with | some g => item.grade == g | none => true) &&
      (match f.year with | some y => item.year == y | none => true) &&
      (match f.subject with | some s => item.subject == s | none => true)

/-- The `options` object of `search`. -/
structure SearchOptions where
  returnAll : Bool := false
  filters : Option SearchFilters := none
  limit : Option Nat := none

/-- `SearchEngine.search(query, options)` (src/unnamed/part_002): a falsy
query or an unindexed engine short-circuits to everything or nothing by
`options.returnAll`; otherwise filter by the match predicate, sort by
relevance descending (stable), apply the equality filters, hydrate back to
full records by id, and truncate to a truthy limit. -/
def search (s : Engine) (query : String) (opts : SearchOptions) : List Resource :=
  if query = "" ∨ s.isIndexed = false then
    if opts.returnAll then s.fullResources else []
  else
    let searchTerm := trimChars (lowerChars query)
    let results := s.searchIndex.filter fun item => matchesQuery item searchTerm
    let sorted := results.mergeSort fun a b =>
      decide (calculateRelevance b searchTerm ≤ calculateRelevance a searchTerm)
    let filteredResults := applySearchFilters sorted opts.filters
    let fullResults :=
      (filteredResults.map fun item => s.fullResources.find? fun r => r.id == item.id).filterMap id
    match opts.limit with
    | some n => if n ≠ 0 ∧ fullResults.length > n then fullResults.take n else fullResults
    | none => fullResults

end SearchEngine

/-! ### Generic helper lemmas -/

/-- Membership in a conditional singleton list. -/
lemma mem_ite_singleton {α : Type} {c : Prop} [Decidable c] {x kv : α} :
    kv ∈ (if c then [x] else []) ↔ kv = x ∧ c := by
  split_ifs with hc <;> simp [hc]

/-- Prepending then re-truncating collapses an inner truncation. -/
lemma take_cons_take {α : Type} (cap : Nat) (d : α) (l : List α) :
    List.take cap (d :: List.take cap l) = List.take cap (d :: l) := by
  cases cap with
  | zero => simp
  | succ n =>
    simp only [List.take_succ_cons, List.take_take]
    rw [Nat.min_eq_left (Nat.le_succ n)]

/-- Closed form of folding a capped `unshift` over a list of new entries. -/
lemma foldl_capped_unshift {α : Type} (cap : Nat) :
    ∀ (ds : List α) (q : List α),
      ds.foldl (fun acc d => List.take cap (d :: acc)) (List.take cap q) =
        List.take cap (ds.reverse ++ q) := by
  intro ds
  induction ds with
  | nil => intro q; simp
  | cons d ds ih =>
    intro q
    simp only [List.foldl_cons, List.reverse_cons, List.append_assoc, List.singleton_append]
    rw [take_cons_take, ih (d :: q)]

/-- A stable merge sort applied twice is the same as applied once, for a
transitive total boolean relation. -/
lemma mergeSort_idem {α : Type} {le : α → α → Bool}
    (htrans : ∀ a b c, le a b → le b c → le a c)
    (htotal : ∀ a b, le a b || le b a) (l : List α) :
    (l.mergeSort le).mergeSort le = l.mergeSort le :=
  List.mergeSort_of_sorted (List.sorted_mergeSort htrans htotal l)

/-! ### C3: download retry exhaustion -/

/-- When every attempt fails, `downloadPDF` makes `mr - rc + 1` attempts
from retry counter `rc`, resolves unsuccessfully, and calls `onError`. -/
lemma downloadPDF_all_fail (attemptOk : Nat → Bool) (h : ∀ n, attemptOk n = false) :
    ∀ (k mr rc : Nat), mr - rc = k →
      DownloadManager.downloadPDF attemptOk mr rc = (k + 1, false, true) := by
  intro k
  induction k with
  | zero =>
    intro mr rc hk
    rw [DownloadManager.downloadPDF, h rc]
    simp only [Bool.false_eq_true, if_false]
    rw [if_neg (by omega)]
  | succ n ih =>
    intro mr rc hk
    rw [DownloadManager.downloadPDF, h rc]
    simp only [Bool.false_eq_true, if_false]
    rw [if_pos (by omega), ih mr (rc + 1) (by omega)]

/-- C3: against a URL whose download attempt always fails, `downloadPDF`
performs exactly `maxRetries + 1 = 4` total attempts, resolves with a
failure result (it does not throw), and invokes `onError`. -/
theorem downloadPDF_retry_exhaustion (attemptOk : Nat → Bool) (h : ∀ n, attemptOk n = false) :
    DownloadManager.downloadPDF attemptOk DownloadManager.maxRetries 0 =
      (DownloadManager.maxRetries + 1, false, true) :=
  downloadPDF_all_fail attemptOk h DownloadManager.maxRetries DownloadManager.maxRetries 0 rfl

/-- Witness for C3 at the concrete always-failing attempt function. -/
theorem downloadPDF_retry_exhaustion_witness :
    (∀ n, (fun _ : Nat => false) n = false) ∧
      DownloadManager.downloadPDF (fun _ => false) DownloadManager.maxRetries 0 = (4, false, true) :=
  ⟨fun _ => rfl, downloadPDF_retry_exhaustion (fun _ => false) (fun _ => rfl)⟩

/-! ### C4: download-history caps -/

/-- C4: however many downloads are recorded, the three download-history
sequences stay at their caps — 100 entries for the storage wrapper's
`download_history` and the Application Controller's in-memory copy, 1000
for the Download Manager's persisted `downloadHistory` — and each equals
the newest-first truncation of the recorded sequence (so the oldest entries
are the ones evicted). -/
theorem download_history_caps {α : Type} (ds : List α) :
    (ds.foldl (fun h d => StorageManager.addToDownloadHistory d h) [] = ds.reverse.take 100 ∧
      (ds.foldl (fun h d => StorageManager.addToDownloadHistory d h) []).length ≤ 100) ∧
    (ds.foldl (fun h d => DownloadManager.trackDownload d h) [] = ds.reverse.take 1000 ∧
      (ds.foldl (fun h d => DownloadManager.trackDownload d h) []).length ≤ 1000) ∧
    (ds.foldl (fun h d => ExamPortal.trackDownload d h) [] = ds.reverse.take 100 ∧
      (ds.foldl (fun h d => ExamPortal.trackDownload d h) []).length ≤ 100) := by
  have hstep : ∀ (cap : Nat) (d : α) (acc : List α),
      (if (d :: acc).length > cap then (d :: acc).take cap else d :: acc) =
        List.take cap (d :: acc) := by
    intro cap d acc
    split_ifs with hl
    · rfl
    · exact (List.take_of_length_le (by omega)).symm
  have h100 : ∀ f : α → List α → List α, (∀ d acc, f d acc = List.take 100 (d :: acc)) →
      ds.foldl (fun h d => f d h) [] = ds.reverse.take 100 := by
    intro f hf
    have := foldl_capped_unshift 100 ds []
    simp only [List.append_nil, List.take_nil] at this
    rw [← this]
    congr 1
    funext acc d
    rw [hf]
  have h1000 : ds.foldl (fun h d => DownloadManager.trackDownload d h) [] =
      ds.reverse.take 1000 := by
    have := foldl_capped_unshift 1000 ds []
    simp only [List.append_nil, List.take_nil] at this
    rw [← this]
    congr 1
    funext acc d
    rw [DownloadManager.trackDownload, hstep]
  have hs : ds.foldl (fun h d => StorageManager.addToDownloadHistory d h) [] =
      ds.reverse.take 100 :=
    h100 _ (fun d acc => by rw [StorageManager.addToDownloadHistory, hstep])
  have he : ds.foldl (fun h d => ExamPortal.trackDownload d h) [] = ds.reverse.take 100 :=
    h100 _ (fun d acc => by rw [ExamPortal.trackDownload, hstep])
  refine ⟨⟨hs, ?_⟩, ⟨h1000, ?_⟩, ⟨he, ?_⟩⟩ <;>
    simp only [hs, h1000, he, List.length_take] <;> omega

/-! ### C5: grade filter URL round-trip -/

/-- C5: starting from the default selection, `setFilter("grade", "10")`
followed by re-parsing the produced query string through `initFromURL`
reproduces exactly the selection with `grade = "10"` and every other axis
at its default. -/
theorem grade_filter_url_roundtrip :
    FilterManager.initFromURL
        (FilterManager.updateURLParams
          (FilterManager.setFilter FilterManager.defaultFilters "grade" "10")) =
      { FilterManager.defaultFilters with grade := "10" } := by
  decide

/-! ### C8: empty-query search -/

/-- C8: on an indexed dataset, a search for the empty query short-circuits —
it returns the full indexed item list when `returnAll` is set and the empty
list otherwise (in particular when the option is absent, its default being
`false`); no matching, scoring or filtering runs. -/
theorem search_empty_query (resources : List Resource) (opts : SearchEngine.SearchOptions) :
    SearchEngine.search (SearchEngine.indexResources resources) "" opts =
      if opts.returnAll then resources else [] := by
  simp [SearchEngine.search, SearchEngine.indexResources]

/-! ### C10: favorites are a duplicate-free set -/

/-- Any sequence of add/remove favorite operations starting from a
duplicate-free stored list keeps it duplicate-free. -/
lemma applyFavoriteOps_nodup :
    ∀ (ops : List (Bool × String)) (favs : List String), favs.Nodup →
      (StorageManager.applyFavoriteOps favs ops).Nodup := by
  intro ops
  induction ops with
  | nil => intro favs h; exact h
  | cons op ops ih =>
    intro favs h
    rw [StorageManager.applyFavoriteOps, List.foldl_cons]
    apply ih
    by_cases hop : op.1 <;> by_cases hmem : op.2 ∈ favs <;>
      simp [hop, StorageManager.addFavorite, StorageManager.removeFavorite, hmem,
        List.nodup_append, h, h.erase op.2]

/-- C10: the stored favorites list never contains duplicates — `addFavorite`
appends only when the identifier is absent and returns `true` without
writing when it is present, `removeFavorite` returns `true` without writing
when it is absent, both are idempotent on a duplicate-free stored list, and
every operation sequence started from the empty store stays duplicate-free. -/
theorem favorites_set_semantics (favs : List String) (id : String) :
    (favs.Nodup →
      ((StorageManager.addFavorite favs id).1.Nodup ∧
        (StorageManager.removeFavorite favs id).1.Nodup ∧
        (StorageManager.addFavorite (StorageManager.addFavorite favs id).1 id).1 =
          (StorageManager.addFavorite favs id).1 ∧
        (StorageManager.removeFavorite (StorageManager.removeFavorite favs id).1 id).1 =
          (StorageManager.removeFavorite favs id).1)) ∧
    (id ∈ favs → StorageManager.addFavorite favs id = (favs, false, true)) ∧
    (id ∉ favs → StorageManager.removeFavorite favs id = (favs, false, true)) ∧
    (∀ ops : List (Bool × String), (StorageManager.applyFavoriteOps [] ops).Nodup) := by
  refine ⟨?_, ?_, ?_, fun ops => applyFavoriteOps_nodup ops [] List.nodup_nil⟩
  · intro hnd
    by_cases h : id ∈ favs
    · refine ⟨?_, ?_, ?_, ?_⟩
      · simpa [StorageManager.addFavorite, h] using hnd
      · simpa [StorageManager.removeFavorite, h] using hnd.erase id
      · simp [StorageManager.addFavorite, h]
      · simp [StorageManager.removeFavorite, h, hnd.not_mem_erase]
    · refine ⟨?_, ?_, ?_, ?_⟩
      · simp [StorageManager.addFavorite, h, List.nodup_append, hnd]
      · simpa [StorageManager.removeFavorite, h] using hnd
      · simp [StorageManager.addFavorite, h]
      · simp [StorageManager.removeFavorite, h]
  · intro h
    simp [StorageManager.addFavorite, h]
  · intro h
    simp [StorageManager.removeFavorite, h]

/-- Witness for C10 on a concrete favorites list, discharging the
duplicate-freeness, presence and absence hypotheses. -/
theorem favorites_set_semantics_witness :
    (["a", "b"].Nodup ∧
      (StorageManager.addFavorite ["a", "b"] "a").1.Nodup ∧
      (StorageManager.removeFavorite ["a", "b"] "a").1.Nodup ∧
      (StorageManager.addFavorite (StorageManager.addFavorite ["a", "b"] "a").1 "a").1 =
        (StorageManager.addFavorite ["a", "b"] "a").1 ∧
      (StorageManager.removeFavorite (StorageManager.removeFavorite ["a", "b"] "a").1 "a").1 =
        (StorageManager.removeFavorite ["a", "b"] "a").1) ∧
    ("a" ∈ ["a", "b"] ∧ StorageManager.addFavorite ["a", "b"] "a" = (["a", "b"], false, true)) ∧
    ("c" ∉ ["a", "b"] ∧
      StorageManager.removeFavorite ["a", "b"] "c" = (["a", "b"], false, true)) := by
  have h := favorites_set_semantics ["a", "b"] "a"
  have h2 := favorites_set_semantics ["a", "b"] "c"
  have hnd := h.1 (by decide)
  exact ⟨⟨by decide, hnd.1, hnd.2.1, hnd.2.2.1, hnd.2.2.2⟩,
    ⟨by decide, h.2.1 (by decide)⟩, ⟨by decide, h2.2.2.1 (by decide)⟩⟩

/-! ### C2: analytics auto-flush at 20 and failed-flush re-queue order -/

/-- Closed form of a run of `queueEvent` calls on an enabled tracker. -/
lemma enqueueAll_closed {α : Type} :
    ∀ (es : List α) (q p : List α),
      AnalyticsTracker.enqueueAll ⟨q, p, true⟩ es =
        ⟨q ++ es, if es.isEmpty then p else q ++ es, true⟩ := by
  intro es
  induction es with
  | nil => intro q p; simp [AnalyticsTracker.enqueueAll]
  | cons e es ih =>
    intro q p
    rw [AnalyticsTracker.enqueueAll, List.foldl_cons]
    have hq : (AnalyticsTracker.queueEvent (⟨q, p, true⟩ : AnalyticsTracker.Tracker α) e).1 =
        ⟨q ++ [e], q ++ [e], true⟩ := by
      simp [AnalyticsTracker.queueEvent]
    rw [hq]
    have := ih (q ++ [e]) (q ++ [e])
    rw [AnalyticsTracker.enqueueAll] at this
    rw [this]
    cases es with
    | nil => simp
    | cons f fs => simp

/-- C2: starting from a fresh tracker, the 20th enqueued event makes the
in-memory queue reach 20 and fires the automatic flush; the flush swaps out
exactly those 20 events as the batch, and if the network send fails, the
persisted queue (and the in-memory queue) holds the failed batch followed by
every event enqueued meanwhile, in original relative order. -/
theorem analytics_flush_trigger_and_failure_order {α : Type} (es : List α) (e : α)
    (ms : List α) (h : es.length = 19) :
    (AnalyticsTracker.queueEvent (AnalyticsTracker.enqueueAll AnalyticsTracker.init es) e).2 =
      true ∧
    (AnalyticsTracker.flushBegin
        (AnalyticsTracker.queueEvent (AnalyticsTracker.enqueueAll AnalyticsTracker.init es) e).1).2 =
      es ++ [e] ∧
    AnalyticsTracker.sendEventsFail
        (AnalyticsTracker.enqueueAll
          (AnalyticsTracker.flushBegin
            (AnalyticsTracker.queueEvent
              (AnalyticsTracker.enqueueAll AnalyticsTracker.init es) e).1).1 ms)
        (AnalyticsTracker.flushBegin
          (AnalyticsTracker.queueEvent
            (AnalyticsTracker.enqueueAll AnalyticsTracker.init es) e).1).2 =
      ⟨(es ++ [e]) ++ ms, (es ++ [e]) ++ ms, true⟩ := by
  have h19 : AnalyticsTracker.enqueueAll AnalyticsTracker.init es =
      ⟨es, if es.isEmpty then [] else es, true⟩ := by
    have := enqueueAll_closed es [] []
    simpa [AnalyticsTracker.init] using this
  have hq : (AnalyticsTracker.queueEvent
      (AnalyticsTracker.enqueueAll AnalyticsTracker.init es) e) =
      (⟨es ++ [e], es ++ [e], true⟩, true) := by
    rw [h19]
    simp [AnalyticsTracker.queueEvent, h]
  have hf : (AnalyticsTracker.flushBegin
      (⟨es ++ [e], es ++ [e], true⟩ : AnalyticsTracker.Tracker α)) =
      (⟨[], es ++ [e], true⟩, es ++ [e]) := by
    have hlen : (es ++ [e]).length = 20 := by simp [h]
    simp [AnalyticsTracker.flushBegin, hlen]
  have hm : AnalyticsTracker.enqueueAll (⟨[], es ++ [e], true⟩ : AnalyticsTracker.Tracker α) ms =
      ⟨ms, if ms.isEmpty then es ++ [e] else ms, true⟩ := by
    simpa using enqueueAll_closed ms [] (es ++ [e])
  rw [hq]
  refine ⟨rfl, ?_, ?_⟩
  · rw [hf]
  · rw [hf, hm]
    simp [AnalyticsTracker.sendEventsFail]

/-- Witness for C2 with 19 then 1 concrete events and two more enqueued
while the failing flush is in flight. -/
theorem analytics_flush_trigger_and_failure_order_witness :
    (List.range 19).length = 19 ∧
    ((AnalyticsTracker.queueEvent
        (AnalyticsTracker.enqueueAll AnalyticsTracker.init (List.range 19)) 19).2 = true ∧
      (AnalyticsTracker.flushBegin
          (AnalyticsTracker.queueEvent
            (AnalyticsTracker.enqueueAll AnalyticsTracker.init (List.range 19)) 19).1).2 =
        List.range 19 ++ [19] ∧
      AnalyticsTracker.sendEventsFail
          (AnalyticsTracker.enqueueAll
            (AnalyticsTracker.flushBegin
              (AnalyticsTracker.queueEvent
                (AnalyticsTracker.enqueueAll AnalyticsTracker.init (List.range 19)) 19).1).1
            [100, 101])
          (AnalyticsTracker.flushBegin
            (AnalyticsTracker.queueEvent
              (AnalyticsTracker.enqueueAll AnalyticsTracker.init (List.range 19)) 19).1).2 =
        ⟨(List.range 19 ++ [19]) ++ [100, 101], (List.range 19 ++ [19]) ++ [100, 101], true⟩) :=
  ⟨by decide,
    analytics_flush_trigger_and_failure_order (List.range 19) 19 [100, 101] (by decide)⟩

/-! ### C6: URL parameter names produced by the Filter Engine -/

/-- C6 counterexample: after the mutation `setFilter("sortBy", "newest")`,
the produced query parameters contain the key `sortBy` — which is outside
the claimed set {category, grade, year, subject, sort, tags} — and nothing
is stored under the parameter name `sort`. -/
theorem sort_param_name_counterexample :
    ("sortBy", "newest") ∈
        FilterManager.updateURLParams
          (FilterManager.setFilter FilterManager.defaultFilters "sortBy" "newest") ∧
      FilterManager.paramGet
          (FilterManager.updateURLParams
            (FilterManager.setFilter FilterManager.defaultFilters "sortBy" "newest"))
          "sort" = none := by
  decide

/-- C6 (amended): after every filter mutation the produced query string
contains only parameters drawn from {category, grade, year, subject,
sortBy, tags}, each axis omitted when at its default ("all" for the
equality axes, "popular" for sort, empty for tags); a non-default sort key
is mirrored under the parameter name `sortBy` (not `sort`). -/
theorem updateURL_param_names (f : FilterManager.Filters) :
    (∀ kv ∈ FilterManager.updateURLParams f,
        kv.1 ∈ (["category", "grade", "year", "subject", "sortBy", "tags"] : List String)) ∧
    (f.category = "all" →
      FilterManager.paramGet (FilterManager.updateURLParams f) "category" = none) ∧
    (f.grade = "all" → FilterManager.paramGet (FilterManager.updateURLParams f) "grade" = none) ∧
    (f.year = "all" → FilterManager.paramGet (FilterManager.updateURLParams f) "year" = none) ∧
    (f.subject = "all" →
      FilterManager.paramGet (FilterManager.updateURLParams f) "subject" = none) ∧
    (f.sortBy = "popular" →
      FilterManager.paramGet (FilterManager.updateURLParams f) "sortBy" = none) ∧
    (f.tags = [] → FilterManager.paramGet (FilterManager.updateURLParams f) "tags" = none) ∧
    (f.sortBy ≠ "all" → f.sortBy ≠ "popular" → f.sortBy ≠ "" →
      ("sortBy", f.sortBy) ∈ FilterManager.updateURLParams f) := by
  have hiff : ∀ kv, kv ∈ FilterManager.updateURLParams f ↔
      ((kv = ("category", f.category) ∧ FilterManager.keepParam f.category = true) ∨
        (kv = ("grade", f.grade) ∧ FilterManager.keepParam f.grade = true) ∨
        (kv = ("year", f.year) ∧ FilterManager.keepParam f.year = true) ∨
        (kv = ("subject", f.subject) ∧ FilterManager.keepParam f.subject = true) ∨
        (kv = ("sortBy", f.sortBy) ∧ FilterManager.keepParam f.sortBy = true) ∨
        (kv = ("tags", (⟨List.intercalate [','] (f.tags.map String.data)⟩ : String)) ∧
          f.tags.length > 0)) := by
    intro kv
    simp only [FilterManager.updateURLParams, List.mem_append, mem_ite_singleton, or_assoc]
  have hnone : ∀ key : String,
      (∀ kv ∈ FilterManager.updateURLParams f, kv.1 ≠ key) →
      FilterManager.paramGet (FilterManager.updateURLParams f) key = none := by
    intro key hk
    have hfind : (FilterManager.updateURLParams f).find? (fun kv => kv.1 == key) = none :=
      List.find?_eq_none.mpr fun kv hkv => by simpa using hk kv hkv
    rw [FilterManager.paramGet, hfind]
    rfl
  refine ⟨?_, ?_, ?_, ?_, ?_, ?_, ?_, ?_⟩
  · intro kv hkv
    rcases (hiff kv).mp hkv with ⟨rfl, -⟩ | ⟨rfl, -⟩ | ⟨rfl, -⟩ | ⟨rfl, -⟩ | ⟨rfl, -⟩ | ⟨rfl, -⟩ <;>
      simp
  · intro h
    apply hnone
    intro kv hkv
    rcases (hiff kv).mp hkv with ⟨rfl, hc⟩ | ⟨rfl, hc⟩ | ⟨rfl, hc⟩ | ⟨rfl, hc⟩ | ⟨rfl, hc⟩ |
      ⟨rfl, hc⟩
    · simp [FilterManager.keepParam, h] at hc
    all_goals simp
  · intro h
    apply hnone
    intro kv hkv
    rcases (hiff kv).mp hkv with ⟨rfl, hc⟩ | ⟨rfl, hc⟩ | ⟨rfl, hc⟩ | ⟨rfl, hc⟩ | ⟨rfl, hc⟩ |
      ⟨rfl, hc⟩
    · simp
    · simp [FilterManager.keepParam, h] at hc
    all_goals simp
  · intro h
    apply hnone
    intro kv hkv
    rcases (hiff kv).mp hkv with ⟨rfl, hc⟩ | ⟨rfl, hc⟩ | ⟨rfl, hc⟩ | ⟨rfl, hc⟩ | ⟨rfl, hc⟩ |
      ⟨rfl, hc⟩
    · simp
    · simp
    · simp [FilterManager.keepParam, h] at hc
    all_goals simp
  · intro h
    apply hnone
    intro kv hkv
    rcases (hiff kv).mp hkv with ⟨rfl, hc⟩ | ⟨rfl, hc⟩ | ⟨rfl, hc⟩ | ⟨rfl, hc⟩ | ⟨rfl, hc⟩ |
      ⟨rfl, hc⟩
    · simp
    · simp
    · simp
    · simp [FilterManager.keepParam, h] at hc
    all_goals simp
  · intro h
    apply hnone
    intro kv hkv
    rcases (hiff kv).mp hkv with ⟨rfl, hc⟩ | ⟨rfl, hc⟩ | ⟨rfl, hc⟩ | ⟨rfl, hc⟩ | ⟨rfl, hc⟩ |
      ⟨rfl, hc⟩
    · simp
    · simp
    · simp
    · simp
    · simp [FilterManager.keepParam, h] at hc
    · simp
  · intro h
    apply hnone
    intro kv hkv
    rcases (hiff kv).mp hkv with ⟨rfl, hc⟩ | ⟨rfl, hc⟩ | ⟨rfl, hc⟩ | ⟨rfl, hc⟩ | ⟨rfl, hc⟩ |
      ⟨rfl, hc⟩
    · simp
    · simp
    · simp
    · simp
    · simp
    · simp [h] at hc
  · intro h1 h2 h3
    refine (hiff _).mpr (Or.inr (Or.inr (Or.inr (Or.inr (Or.inl ⟨rfl, ?_⟩)))))
    simp [FilterManager.keepParam, h1, h2, h3]

/-- Witness for C6 (amended) at a selection with a non-default sort key and
otherwise-default axes, discharging the implications' hypotheses. -/
theorem updateURL_param_names_witness :
    (∀ kv ∈ FilterManager.updateURLParams
        { FilterManager.defaultFilters with sortBy := "newest" },
      kv.1 ∈ (["category", "grade", "year", "subject", "sortBy", "tags"] : List String)) ∧
    FilterManager.paramGet
        (FilterManager.updateURLParams { FilterManager.defaultFilters with sortBy := "newest" })
        "category" = none ∧
    FilterManager.paramGet
        (FilterManager.updateURLParams { FilterManager.defaultFilters with sortBy := "newest" })
        "tags" = none ∧
    ("sortBy", "newest") ∈
      FilterManager.updateURLParams { FilterManager.defaultFilters with sortBy := "newest" } := by
  have h := updateURL_param_names { FilterManager.defaultFilters with sortBy := "newest" }
  exact ⟨h.1, h.2.1 rfl, h.2.2.2.2.2.2.1 rfl,
    h.2.2.2.2.2.2.2 (by decide) (by decide) (by decide)⟩

/-! ### C7: parseFileSize on a well-formed label, a bogus label, and a
missing size -/

/-- C7: `parseFileSize` maps `"15.2 MB"` to 15.2 × 1024 × 1024 bytes, maps
a missing size to 0, and maps any string the size pattern rejects — for
example `"bogus"` — to 0. -/
theorem parseFileSize_cases :
    FilterManager.parseFileSize (some "15.2 MB") = (15.2 : ℚ) * 1024 * 1024 ∧
    FilterManager.parseFileSize (some "bogus") = 0 ∧
    FilterManager.parseFileSize none = 0 ∧
    (∀ s : String, FilterManager.parseSizeChars s.data = none →
      FilterManager.parseFileSize (some s) = 0) := by
  refine ⟨?_, ?_, rfl, ?_⟩
  · have hm : FilterManager.parseSizeChars "15.2 MB".data =
        some ⟨['1', '5'], ['2'], ['M', 'B']⟩ := by decide
    have h1 : digitsToNat ['1', '5'] = 15 := by decide
    have h2 : digitsToNat ['2'] = 2 := by decide
    simp only [FilterManager.parseFileSize, hm]
    rw [if_neg (by decide : ¬("15.2 MB" : String) = "")]
    show FilterManager.numberValue ⟨['1', '5'], ['2'], ['M', 'B']⟩ *
        FilterManager.unitMultiplier ['M', 'B'] = _
    have hu : FilterManager.unitMultiplier ['M', 'B'] = 1024 * 1024 := by
      rw [FilterManager.unitMultiplier, if_neg (by decide), if_pos rfl]
    rw [FilterManager.numberValue, hu]
    simp only [h1, h2]
    rw [if_neg (by decide : ¬(['2'] : List Char) = [])]
    norm_num
  · have hm : FilterManager.parseSizeChars "bogus".data = none := by decide
    simp only [FilterManager.parseFileSize, hm]
    rw [if_neg (by decide : ¬("bogus" : String) = "")]
  · intro s h
    simp only [FilterManager.parseFileSize, h]
    split_ifs <;> rfl

/-- Witness for C7's generic rejected-string conjunct at a concrete
non-matching string. -/
theorem parseFileSize_cases_witness :
    FilterManager.parseSizeChars "xyz".data = none ∧
      FilterManager.parseFileSize (some "xyz") = 0 :=
  ⟨by decide, parseFileSize_cases.2.2.2 "xyz" (by decide)⟩

/-! ### C1: applyFilters keeps exactly the matching records and is
idempotent -/

namespace FilterManager

/-- A guarded filter is an unguarded filter whose predicate absorbs the
guard. -/
lemma condFilter_eq {c : Prop} [Decidable c] (l : List Resource) (p : Resource → Bool) :
    (if c then l.filter p else l) = l.filter fun x => decide (¬ c) || p x := by
  split_ifs with hc
  · simp [hc]
  · simp [hc]

/-- The category step as an unguarded filter. -/
lemma categoryStep_eq (f : Filters) (l : List Resource) :
    categoryStep f l = l.filter fun item => decide (f.category = "all") || item.category == f.category := by
  rw [categoryStep, condFilter_eq]
  simp only [ne_eq, not_not]

/-- The grade step as an unguarded filter. -/
lemma gradeStep_eq (f : Filters) (l : List Resource) :
    gradeStep f l = l.filter fun item => decide (f.grade = "all") || item.grade == f.grade := by
  rw [gradeStep, condFilter_eq]
  simp only [ne_eq, not_not]

/-- The year step as an unguarded filter. -/
lemma yearStep_eq (f : Filters) (l : List Resource) :
    yearStep f l = l.filter fun item => decide (f.year = "all") || item.year == f.year := by
  rw [yearStep, condFilter_eq]
  simp only [ne_eq, not_not]

/-- The subject step as an unguarded filter. -/
lemma subjectStep_eq (f : Filters) (l : List Resource) :
    subjectStep f l = l.filter fun item => decide (f.subject = "all") || item.subject == f.subject := by
  rw [subjectStep, condFilter_eq]
  simp only [ne_eq, not_not]

/-- The tags step as an unguarded filter: with no required tags the
conjunction over them is vacuously true. -/
lemma tagsStep_eq (f : Filters) (l : List Resource) :
    tagsStep f l = l.filter fun item => f.tags.all fun tag => tagIncludes item tag := by
  rw [tagsStep]
  split_ifs with hc
  · rfl
  · have ht : f.tags = [] := by
      cases h : f.tags with
      | nil => rfl
      | cons t ts => exact absurd (by simp [h]) hc
    simp [ht]

/-- The five successive filters of `applyFilters` keep exactly the records
matching every non-"all" axis of the selection. -/
lemma filterOnly_eq (L : List Resource) (f : Filters) :
    filterOnly L f = L.filter fun x => matchesSelection f x := by
  rw [filterOnly, categoryStep_eq, gradeStep_eq, yearStep_eq, subjectStep_eq, tagsStep_eq]
  simp only [List.filter_filter]
  apply List.filter_congr
  intro x hx
  rw [matchesSelection]
  simp only [Bool.and_assoc, Bool.and_comm, Bool.and_left_comm]

/-- A comparator keyed by a function into a linear order is transitive and
total. -/
lemma keyLe_tt {β : Type} [LinearOrder β] (k : Resource → β) :
    (∀ a b c : Resource, (fun x y => decide (k x ≤ k y)) a b →
        (fun x y => decide (k x ≤ k y)) b c → (fun x y => decide (k x ≤ k y)) a c) ∧
    (∀ a b : Resource,
        (fun x y => decide (k x ≤ k y)) a b || (fun x y => decide (k x ≤ k y)) b a) := by
  constructor
  · intro a b c hab hbc
    simp only [decide_eq_true_eq] at hab hbc ⊢
    exact le_trans hab hbc
  · intro a b
    simp only [Bool.or_eq_true, decide_eq_true_eq]
    exact le_total _ _

/-- The reversed keyed comparator is also transitive and total. -/
lemma keyGe_tt {β : Type} [LinearOrder β] (k : Resource → β) :
    (∀ a b c : Resource, (fun x y => decide (k y ≤ k x)) a b →
        (fun x y => decide (k y ≤ k x)) b c → (fun x y => decide (k y ≤ k x)) a c) ∧
    (∀ a b : Resource,
        (fun x y => decide (k y ≤ k x)) a b || (fun x y => decide (k y ≤ k x)) b a) := by
  constructor
  · intro a b c hab hbc
    simp only [decide_eq_true_eq] at hab hbc ⊢
    exact le_trans hbc hab
  · intro a b
    simp only [Bool.or_eq_true, decide_eq_true_eq]
    exact le_total _ _

/-- A sort key equal to none of the seven `case` labels selects no
comparator. -/
lemma sortComparator_eq_none (s : String) (h1 : s ≠ "newest") (h2 : s ≠ "oldest")
    (h3 : s ≠ "popular") (h4 : s ≠ "name-asc") (h5 : s ≠ "name-desc") (h6 : s ≠ "size-asc")
    (h7 : s ≠ "size-desc") : sortComparator s = none := by
  rw [sortComparator.eq_def]
  split
  all_goals simp_all

/-- Every comparator produced by `sortComparator` is transitive and total. -/
lemma sortComparator_trans_total (s : String) (le : Resource → Resource → Bool)
    (h : sortComparator s = some le) :
    (∀ a b c, le a b → le b c → le a c) ∧ (∀ a b, le a b || le b a) := by
  by_cases h1 : s = "newest"
  · subst h1
    rw [show sortComparator "newest" = some (fun a b => decide (dateVal b ≤ dateVal a)) from
      rfl, Option.some.injEq] at h
    exact h ▸ keyGe_tt dateVal
  by_cases h2 : s = "oldest"
  · subst h2
    rw [show sortComparator "oldest" = some (fun a b => decide (dateVal a ≤ dateVal b)) from
      rfl, Option.some.injEq] at h
    exact h ▸ keyLe_tt dateVal
  by_cases h3 : s = "popular"
  · subst h3
    rw [show sortComparator "popular" =
        some (fun a b => decide (downloadsVal b ≤ downloadsVal a)) from rfl,
      Option.some.injEq] at h
    exact h ▸ keyGe_tt downloadsVal
  by_cases h4 : s = "name-asc"
  · subst h4
    rw [show sortComparator "name-asc" =
        some (fun a b => decide (a.title.data ≤ b.title.data)) from rfl,
      Option.some.injEq] at h
    exact h ▸ keyLe_tt (fun r => r.title.data)
  by_cases h5 : s = "name-desc"
  · subst h5
    rw [show sortComparator "name-desc" =
        some (fun a b => decide (b.title.data ≤ a.title.data)) from rfl,
      Option.some.injEq] at h
    exact h ▸ keyGe_tt (fun r => r.title.data)
  by_cases h6 : s = "size-asc"
  · subst h6
    rw [show sortComparator "size-asc" =
        some (fun a b => decide (parseFileSize a.fileSize ≤ parseFileSize b.fileSize)) from rfl,
      Option.some.injEq] at h
    exact h ▸ keyLe_tt (fun r => parseFileSize r.fileSize)
  by_cases h7 : s = "size-desc"
  · subst h7
    rw [show sortComparator "size-desc" =
        some (fun a b => decide (parseFileSize b.fileSize ≤ parseFileSize a.fileSize)) from rfl,
      Option.some.injEq] at h
    exact h ▸ keyGe_tt (fun r => parseFileSize r.fileSize)
  rw [sortComparator_eq_none s h1 h2 h3 h4 h5 h6 h7] at h
  cases h

/-- `applySorting` permutes its input. -/
lemma applySorting_perm (l : List Resource) (s : String) :
    (applySorting l s).Perm l := by
  cases h : sortComparator s with
  | none => simp [applySorting, h]
  | some le =>
    simp only [applySorting, h]
    exact List.mergeSort_perm l le

/-- `applySorting` is idempotent: the stable sort of a sorted list is the
list itself. -/
lemma applySorting_idem (l : List Resource) (s : String) :
    applySorting (applySorting l s) s = applySorting l s := by
  cases h : sortComparator s with
  | none => simp [applySorting, h]
  | some le =>
    simp only [applySorting, h]
    obtain ⟨ht, hto⟩ := sortComparator_trans_total s le h
    exact mergeSort_idem ht hto l

end FilterManager

/-- C1: for every resource list `L` and selection `S`, `applyFilters(L, S)`
consists exactly of the items of `L` matching every non-"all" axis of `S`
(equality on category / grade / year / subject, containment of every
required tag) — as a permutation of the corresponding filtering of `L`, and
membership-wise — and applying it again with the same `S` to its own output
returns the same list in the same order. -/
theorem applyFilters_exact_and_idempotent (L : List Resource) (S : FilterManager.Filters) :
    (FilterManager.applyFilters L S).Perm
        (L.filter fun x => FilterManager.matchesSelection S x) ∧
    (∀ x, x ∈ FilterManager.applyFilters L S ↔
        x ∈ L ∧ FilterManager.matchesSelection S x = true) ∧
    FilterManager.applyFilters (FilterManager.applyFilters L S) S =
      FilterManager.applyFilters L S := by
  have hperm : (FilterManager.applyFilters L S).Perm
      (L.filter fun x => FilterManager.matchesSelection S x) := by
    rw [FilterManager.applyFilters, FilterManager.filterOnly_eq]
    exact FilterManager.applySorting_perm _ _
  refine ⟨hperm, ?_, ?_⟩
  · intro x
    rw [hperm.mem_iff, List.mem_filter]
  · have hall : ∀ x ∈ FilterManager.applyFilters L S,
        FilterManager.matchesSelection S x = true := by
      intro x hx
      exact (List.mem_filter.mp (hperm.mem_iff.mp hx)).2
    conv_lhs => rw [FilterManager.applyFilters, FilterManager.filterOnly_eq]
    rw [List.filter_eq_self.mpr hall]
    exact FilterManager.applySorting_idem (FilterManager.filterOnly L S) S.sortBy

/-! ### C9: sizes under one kilobyte do not round-trip between
formatFileSize and parseFileSize -/

/-- A decimal digit value renders to a digit character. -/
lemma digitChar_isDigit (n : Nat) (h : n < 10) : (digitChar n).isDigit = true := by
  interval_cases n <;> decide

/-- Every character produced by the decimal renderer is a digit. -/
lemma natDigitsAux_digits : ∀ (fuel n : Nat), ∀ c ∈ natDigitsAux fuel n, c.isDigit = true := by
  intro fuel
  induction fuel with
  | zero =>
    intro n c hc
    simp [natDigitsAux] at hc
  | succ fuel ih =>
    intro n c hc
    rw [natDigitsAux] at hc
    split_ifs at hc with h
    · rw [List.mem_singleton] at hc
      exact hc ▸ digitChar_isDigit n h
    · rcases List.mem_append.mp hc with h1 | h1
      · exact ih _ c h1
      · rw [List.mem_singleton] at h1
        exact h1 ▸ digitChar_isDigit (n % 10) (Nat.mod_lt _ (by omega))

/-- Every character of a rendered natural number is a digit. -/
lemma natToDecimalChars_digits (n : Nat) : ∀ c ∈ natToDecimalChars n, c.isDigit = true :=
  natDigitsAux_digits (n + 1) n

/-- A rendered natural number is never the empty string. -/
lemma natToDecimalChars_ne_nil (n : Nat) : natToDecimalChars n ≠ [] := by
  rw [natToDecimalChars, natDigitsAux]
  split_ifs <;> simp

/-- A label of the form `<digits> Bytes` is rejected by the size regex:
`Bytes` is not one of the accepted units. -/
lemma parseSizeChars_digit_bytes (ds : List Char) (hne : ds ≠ [])
    (hds : ∀ c ∈ ds, c.isDigit = true) :
    FilterManager.parseSizeChars (ds ++ ' ' :: "Bytes".data) = none := by
  have htake : (ds ++ ' ' :: "Bytes".data).takeWhile Char.isDigit = ds := by
    rw [List.takeWhile_append, List.takeWhile_eq_self_iff.mpr hds]
    simp
  have hdrop : (ds ++ ' ' :: "Bytes".data).dropWhile Char.isDigit = ' ' :: "Bytes".data := by
    rw [List.dropWhile_append, List.dropWhile_eq_nil_iff.mpr hds]
    simp
  rw [FilterManager.parseSizeChars.eq_def]
  simp only [htake, hdrop]
  rw [if_neg hne]
  show FilterManager.unitCheck ds [] (' ' :: "Bytes".data) = none
  rw [FilterManager.unitCheck]
  have hunit : ((' ' :: "Bytes".data).dropWhile Char.isWhitespace).map Char.toUpper =
      ['B', 'Y', 'T', 'E', 'S'] := by decide
  simp only [hunit]
  rw [if_neg (by decide)]

/-- For byte counts below one kilobyte, `formatFileSize` keeps the raw
integer and the unit word `Bytes`. -/
lemma formatFileSize_small (n : Nat) (h1 : 1 ≤ n) (h2 : n ≤ 1023) :
    DownloadManager.formatFileSize n = (⟨natToDecimalChars n ++ ' ' :: "Bytes".data⟩ : String) := by
  have hlog : Nat.log 1024 n = 0 := Nat.log_eq_zero_iff.mpr (Or.inl (by omega))
  have hv : DownloadManager.toFixed2 ((n : ℚ)) = (n : ℚ) := by
    rw [DownloadManager.toFixed2,
      show (n : ℚ) * 100 + 1 / 2 = ((100 * n : ℤ) : ℚ) + 1 / 2 by push_cast; ring,
      Int.floor_int_add, show ⌊(1 / 2 : ℚ)⌋ = 0 by norm_num]
    push_cast
    ring
  have hr : DownloadManager.ratTo2decChars ((n : ℚ)) = natToDecimalChars n := by
    rw [DownloadManager.ratTo2decChars,
      show ⌊(n : ℚ) * 100⌋ = (100 * n : ℤ) by
        rw [show ((n : ℚ) * 100) = ((100 * n : ℤ) : ℚ) by push_cast; ring, Int.floor_intCast],
      show ((100 * n : ℤ)).toNat = 100 * n by omega,
      show 100 * n / 100 = n by omega, show 100 * n % 100 = 0 by omega]
    simp
  rw [DownloadManager.formatFileSize, if_neg (show ¬ n = 0 by omega)]
  simp only [hlog, pow_zero, div_one, hv, hr]
  rfl

/-- C9: for every byte count `n` with `1 ≤ n ≤ 1023`, the label produced by
`DownloadManager.formatFileSize` uses the unit word `Bytes`, which
`FilterManager.parseFileSize` cannot parse, so the composition yields 0:
sizes under one kilobyte do not round-trip. -/
theorem formatFileSize_parseFileSize_no_roundtrip (n : Nat) (h1 : 1 ≤ n) (h2 : n ≤ 1023) :
    DownloadManager.formatFileSize n = (⟨natToDecimalChars n ++ ' ' :: "Bytes".data⟩ : String) ∧
    FilterManager.parseFileSize (some (DownloadManager.formatFileSize n)) = 0 := by
  have hfmt := formatFileSize_small n h1 h2
  refine ⟨hfmt, ?_⟩
  rw [hfmt]
  have hne : (⟨natToDecimalChars n ++ ' ' :: "Bytes".data⟩ : String) ≠ "" := by
    intro hs
    have hdata : natToDecimalChars n ++ ' ' :: "Bytes".data = [] := congrArg String.data hs
    exact natToDecimalChars_ne_nil n (List.append_eq_nil.mp hdata).1
  simp only [FilterManager.parseFileSize]
  rw [if_neg hne]
  have hparse := parseSizeChars_digit_bytes (natToDecimalChars n)
    (natToDecimalChars_ne_nil n) (natToDecimalChars_digits n)
  simp only [hparse]

/-- Witness for C9 at the concrete byte count 512. -/
theorem formatFileSize_parseFileSize_no_roundtrip_witness :
    (1 ≤ 512 ∧ 512 ≤ 1023) ∧
      (DownloadManager.formatFileSize 512 =
          (⟨natToDecimalChars 512 ++ ' ' :: "Bytes".data⟩ : String) ∧
        FilterManager.parseFileSize (some (DownloadManager.formatFileSize 512)) = 0) :=
  ⟨⟨by decide, by decide⟩,
    formatFileSize_parseFileSize_no_roundtrip 512 (by decide) (by decide)⟩
